import Mathlib

/-!
# Verification of the booking/availability core of the hotel management app

This file gives a shallow embedding of the booking engine of the repository
(`cursova_v3`) and proves or refutes the frozen claims about it.

The repository snapshot contains the React frontend (under
`src/frontend/...`) and documentation; the FastAPI backend sources are not
included.  Consequently:

* functions that live in the frontend (`calculateTotalPrice`,
  `handleOfferToggle`, `calculateBonusPoints`, `canCancelOrExtend` in
  `BookingForm.js`/`UserDashboard.js`, `loadRoomOccupancy` in
  `AdminPanel.js`) are embedded directly from the JavaScript source;
* the backend booking engine (availability check, create, the status state
  machine, the complete transition with its bonus award, and extend) is
  modelled from the spec, as indicated by each definition's doc comment;
* the only extend/bonus code present in the snapshot is the draft endpoint
  `extend_booking` and the bonus-award snippet in the implementation notes
  (`src/unnamed/part_000`), which are embedded verbatim as `extend_booking`
  below so that their behaviour can be compared with the spec.

Conventions of the embedding: calendar dates are day numbers (`ℕ`, or `ℤ`
where the JavaScript arithmetic can go negative); money is `ℚ` (exact
decimal arithmetic — the JavaScript values involved are small decimals);
fallible operations return `Except Err ...`.
-/

namespace Hotel

/-- Booking status, as in the backend model / frontend status strings. -/
inductive BookingStatus where
  | pending
  | confirmed
  | completed
  | cancelled
deriving DecidableEq, Repr

open BookingStatus

/-- A status counts as "active" when it blocks the room: pending or confirmed. -/
def isActive : BookingStatus → Bool
  | pending => true
  | confirmed => true
  | completed => false
  | cancelled => false

/-- Terminal statuses: completed and cancelled (spec §4.3). -/
def isTerminal : BookingStatus → Bool
  | pending => false
  | confirmed => false
  | completed => true
  | cancelled => true

/-- Offer scope, as in the offer catalog (`offer_type`). -/
inductive OfferType where
  | global
  | room_specific
deriving DecidableEq, Repr

/-- An add-on offer from the offer catalog.  `rooms` is the eligible-room
set of a room-specific offer. -/
structure Offer where
  id : ℕ
  price : ℚ
  is_active : Bool
  offer_type : OfferType
  rooms : List ℕ
deriving DecidableEq, Repr

/-- A room record (the fields the booking engine reads). -/
structure Room where
  id : ℕ
  price_per_night : ℚ
  capacity : ℕ
deriving DecidableEq, Repr

/-- A booking record. -/
structure Booking where
  id : ℕ
  user_id : ℕ
  room_id : ℕ
  check_in : ℕ
  check_out : ℕ
  guests : ℕ
  offers : List ℕ
  total_price : ℚ
  status : BookingStatus
deriving DecidableEq, Repr

/-- The error taxonomy of the spec (§7).  `invalidStateTransition` names the
current and the requested state. -/
inductive Err where
  | validationError
  | conflictError
  | notFoundError
  | unauthorized
  | invalidStateTransition (current requested : BookingStatus)
deriving DecidableEq, Repr

/-- Static environment of the engine: room directory, offer catalog and the
current date (used by the create-time `check_in ≥ today` rule). -/
structure Env where
  rooms : List Room
  offers : List Offer
  today : ℕ
deriving Repr

/-- Mutable system state: the booking repository plus the user store's
bonus-point balances (`bonus u` = points of user `u`). -/
structure SysState where
  bookings : List Booking
  nextId : ℕ
  bonus : ℕ → ℕ

/-- Is offer `o` eligible for room `rm`: global, or room-specific and the
room belongs to the offer's eligible set (spec §4.2). -/
def eligibleB (o : Offer) (rm : Room) : Bool :=
  match o.offer_type with
  | .global => true
  | .room_specific => rm.id ∈ o.rooms

/-- Sum of the prices of the offers of the catalog that are selected,
currently active and eligible for the room (spec §4.2 `offers_total`). -/
def offersTotal (catalog : List Offer) (rm : Room) (sel : List ℕ) : ℚ :=
  ((catalog.filter fun o => sel.contains o.id && o.is_active && eligibleB o rm).map
    (fun o => o.price)).sum

/-- Modelled from the spec: §4.2 price computation of the backend booking
engine, whose implementation is not included under `src/`.
`nights × price_per_night + offers_total`; the caller guarantees
`a < b` so `nights = b - a ≥ 1`. -/
def computePrice (env : Env) (rm : Room) (a b : ℕ) (sel : List ℕ) : ℚ :=
  ((b - a : ℕ) : ℚ) * rm.price_per_night + offersTotal env.offers rm sel

/-- Modelled from the spec: §4.1 availability check of the backend booking
engine, absent from `src/`.  Returns the bookings of `bs` that are in
{pending, confirmed} for room `roomId` — minus the optional excluded
booking — whose half-open range `[c, d)` overlaps the candidate `[a, b)`,
i.e. `a < d ∧ c < b`. -/
def conflictingBookings (bs : List Booking) (roomId a b : ℕ) (excl : Option ℕ) :
    List Booking :=
  bs.filter fun bk =>
    (match excl with
     | some e => bk.id != e
     | none => true) &&
    isActive bk.status && bk.room_id == roomId &&
    decide (a < bk.check_out) && decide (bk.check_in < b)

/-- A booking creation request (body of `POST /bookings`). -/
structure CreateReq where
  user_id : ℕ
  room_id : ℕ
  check_in : ℕ
  check_out : ℕ
  guests : ℕ
  offer_ids : List ℕ
deriving DecidableEq, Repr

/-- The fresh `pending` booking that `createBooking` inserts: next free id,
the request's fields, and the price computed by `computePrice`. -/
def newBookingOf (env : Env) (st : SysState) (r : CreateReq) (rm : Room) : Booking :=
  { id := st.nextId
    user_id := r.user_id
    room_id := r.room_id
    check_in := r.check_in
    check_out := r.check_out
    guests := r.guests
    offers := r.offer_ids
    total_price := computePrice env rm r.check_in r.check_out r.offer_ids
    status := pending }

/-- The state after a successful create: the fresh pending booking appended,
the id counter advanced. -/
def createdState (env : Env) (st : SysState) (r : CreateReq) (rm : Room) : SysState :=
  { st with
    bookings := st.bookings ++ [newBookingOf env st r rm]
    nextId := st.nextId + 1 }

/-- Modelled from the spec: §4.3 `create` of the backend booking engine,
absent from `src/`.  Requires the room to exist, `check_in < check_out`,
`check_in ≥ today`, `1 ≤ guests ≤ capacity`, and the availability check to
pass; inserts a `pending` booking with a fresh id and the computed price,
or fails with `conflictError` when the range overlaps an existing
pending/confirmed booking of the room. -/
def createBooking (env : Env) (st : SysState) (r : CreateReq) : Except Err SysState :=
  match env.rooms.find? (fun rm => rm.id == r.room_id) with
  | none => .error .notFoundError
  | some rm =>
    if r.check_in < r.check_out ∧ env.today ≤ r.check_in then
      if 1 ≤ r.guests ∧ r.guests ≤ rm.capacity then
        if (conflictingBookings st.bookings r.room_id r.check_in r.check_out none).isEmpty then
          .ok (createdState env st r rm)
        else .error .conflictError
      else .error .validationError
    else .error .validationError

/-- Look a booking up by id in the repository. -/
def findBooking (st : SysState) (bid : ℕ) : Option Booking :=
  st.bookings.find? (fun b => b.id == bid)

/-- Replace the status of the booking with id `bid`. -/
def setStatus (st : SysState) (bid : ℕ) (s : BookingStatus) : SysState :=
  { st with bookings := st.bookings.map fun b =>
      if b.id = bid then { b with status := s } else b }

/-- Modelled from the spec: §4.3 `confirm` (manager), absent from `src/`:
`pending → confirmed`, otherwise an `invalidStateTransition` naming the
current and the requested state. -/
def confirmBooking (st : SysState) (bid : ℕ) : Except Err SysState :=
  match findBooking st bid with
  | none => .error .notFoundError
  | some b =>
    if b.status = pending then .ok (setStatus st bid confirmed)
    else .error (.invalidStateTransition b.status confirmed)

/-- Modelled from the spec: §4.3 `decline` (manager), absent from `src/`:
`pending → cancelled`, otherwise `invalidStateTransition`. -/
def declineBooking (st : SysState) (bid : ℕ) : Except Err SysState :=
  match findBooking st bid with
  | none => .error .notFoundError
  | some b =>
    if b.status = pending then .ok (setStatus st bid cancelled)
    else .error (.invalidStateTransition b.status cancelled)

/-- Modelled from the spec: §4.3 `cancel` (owner or manager), absent from
`src/`: `{pending, confirmed} → cancelled`, otherwise
`invalidStateTransition`. -/
def cancelBooking (st : SysState) (bid : ℕ) : Except Err SysState :=
  match findBooking st bid with
  | none => .error .notFoundError
  | some b =>
    if b.status = pending ∨ b.status = confirmed then .ok (setStatus st bid cancelled)
    else .error (.invalidStateTransition b.status cancelled)

/-- Bonus points awarded for a completed booking: `floor(total_price / 10)`
(spec §4.3; same formula as the `int(booking.total_price // 10)` snippet of
`src/unnamed/part_000` and `Math.floor(totalPrice / 10)` in
`UserDashboard.js`). -/
def bonusPointsFor (total_price : ℚ) : ℕ :=
  (⌊total_price / 10⌋).toNat

/-- The state after a successful complete of the booking found as `b`: its
status becomes `completed` and the owner's balance grows by
`bonusPointsFor b.total_price`. -/
def completedState (st : SysState) (bid : ℕ) (b : Booking) : SysState :=
  { bookings := (setStatus st bid completed).bookings
    nextId := st.nextId
    bonus := fun u =>
      if u = b.user_id then st.bonus u + bonusPointsFor b.total_price
      else st.bonus u }

/-- Modelled from the spec: §4.3 `complete`, absent from `src/`:
`confirmed → completed`, awarding `floor(total_price / 10)` bonus points to
the owning user on this single-fire transition; any other current status
gives `invalidStateTransition`. -/
def completeBooking (st : SysState) (bid : ℕ) : Except Err SysState :=
  match findBooking st bid with
  | none => .error .notFoundError
  | some b =>
    if b.status = confirmed then .ok (completedState st bid b)
    else .error (.invalidStateTransition b.status completed)

/-- The state produced by a successful extend of booking `bid` (found as
`b`, in room `rm`) by `n` days: its check-out moves to `b.check_out + n`
and its price is recomputed from scratch over the new duration with the
booking's existing offer selection. -/
def extendedState (env : Env) (st : SysState) (bid n : ℕ) (b : Booking) (rm : Room) :
    SysState :=
  { st with bookings := st.bookings.map fun c =>
      if c.id = bid then
        { c with check_out := b.check_out + n
                 total_price := computePrice env rm b.check_in (b.check_out + n) b.offers }
      else c }

/-- Modelled from the spec: §4.3 `extend`, absent from `src/` (the snapshot
only carries the draft `extend_booking` below).  While the booking is
pending/confirmed and `1 ≤ N ≤ 30`, re-runs the availability check against
`[check_in, check_out + N)` excluding the booking itself; on success moves
to `extendedState` (new check-out, price recomputed from scratch); on
overlap fails with `conflictError` leaving the state untouched. -/
def extendBooking (env : Env) (st : SysState) (bid n : ℕ) : Except Err SysState :=
  match findBooking st bid with
  | none => .error .notFoundError
  | some b =>
    if isActive b.status = true then
      if 1 ≤ n ∧ n ≤ 30 then
        match env.rooms.find? (fun rm => rm.id == b.room_id) with
        | none => .error .notFoundError
        | some rm =>
          if (conflictingBookings st.bookings b.room_id b.check_in (b.check_out + n)
              (some bid)).isEmpty then
            .ok (extendedState env st bid n b rm)
          else .error .conflictError
      else .error .validationError
    else .error .validationError

/-- Embedded from `src/unnamed/part_000` lines 296–330: the draft
`extend_booking` endpoint recorded in the repository's implementation
notes (the only extend implementation in the snapshot).  It checks
existence (404), ownership (403) and that the status is pending/confirmed
(400), then unconditionally adds the days to the check-out date and sets
`total_price := price_per_night × new duration`.  It runs no availability
check and ignores the booking's selected offers when recomputing. -/
def extend_booking (env : Env) (st : SysState) (bid days currentUserId : ℕ)
    (isManagerOrAdmin : Bool) : Except Err SysState :=
  match findBooking st bid with
  | none => .error .notFoundError
  | some b =>
    if b.user_id = currentUserId ∨ isManagerOrAdmin = true then
      if b.status = pending ∨ b.status = confirmed then
        match env.rooms.find? (fun rm => rm.id == b.room_id) with
        | none => .error .notFoundError
        | some rm =>
          let newOut := b.check_out + days
          .ok { st with bookings := st.bookings.map fun c =>
                  if c.id = bid then
                    { c with check_out := newOut
                             total_price := ((newOut - b.check_in : ℕ) : ℚ) * rm.price_per_night }
                  else c }
      else .error .validationError
    else .error .unauthorized

/-- The initial system state: no bookings, all bonus balances zero. -/
def initState : SysState :=
  { bookings := [], nextId := 0, bonus := fun _ => 0 }

/-- One step of the booking engine: any of the operations, applied with any
parameters, succeeding. -/
inductive Step (env : Env) : SysState → SysState → Prop where
  | create (r : CreateReq) {st st' : SysState} :
      createBooking env st r = .ok st' → Step env st st'
  | confirm (bid : ℕ) {st st' : SysState} :
      confirmBooking st bid = .ok st' → Step env st st'
  | decline (bid : ℕ) {st st' : SysState} :
      declineBooking st bid = .ok st' → Step env st st'
  | cancel (bid : ℕ) {st st' : SysState} :
      cancelBooking st bid = .ok st' → Step env st st'
  | complete (bid : ℕ) {st st' : SysState} :
      completeBooking st bid = .ok st' → Step env st st'
  | extend (bid n : ℕ) {st st' : SysState} :
      extendBooking env st bid n = .ok st' → Step env st st'

/-- A state is reachable when some sequence of engine operations produces it
from the initial state. -/
def Reachable (env : Env) (st : SysState) : Prop :=
  Relation.ReflTransGen (Step env) initState st

/-- Two half-open date ranges overlap: `a < d ∧ c < b` (spec §4.1). -/
def Overlaps (a b c d : ℕ) : Prop :=
  a < d ∧ c < b

instance (a b c d : ℕ) : Decidable (Overlaps a b c d) :=
  inferInstanceAs (Decidable (_ ∧ _))

/-- The core consistency invariant: no two distinct bookings of the same
room that are both pending/confirmed have overlapping date ranges. -/
def NoActiveOverlap (l : List Booking) : Prop :=
  ∀ b₁ ∈ l, ∀ b₂ ∈ l, b₁.id ≠ b₂.id → b₁.room_id = b₂.room_id →
    isActive b₁.status = true → isActive b₂.status = true →
    ¬ Overlaps b₁.check_in b₁.check_out b₂.check_in b₂.check_out

/-- Internal invariant of the engine: booking ids are below the id counter,
pairwise distinct, and no two active bookings of a room overlap. -/
def Inv (st : SysState) : Prop :=
  (∀ b ∈ st.bookings, b.id < st.nextId) ∧
  (st.bookings.map (fun b => b.id)).Nodup ∧
  NoActiveOverlap st.bookings

/-! ## Frontend embeddings (from the JavaScript sources under `src/`) -/

/-- Embedded from `src/frontend/src/pages/BookingForm.js` (`handleOfferToggle`):
`prev.includes(offerId) ? prev.filter((id) => id !== offerId) : [...prev, offerId]`. -/
def handleOfferToggle (offerId : ℕ) (prev : List ℕ) : List ℕ :=
  if prev.contains offerId then prev.filter (fun i => i != offerId)
  else prev ++ [offerId]

/-- The room object as the booking form sees it: the nightly rate together
with the `available_offers` array delivered by the backend with the room. -/
structure JsRoom where
  price_per_night : ℚ
  available_offers : List Offer
deriving DecidableEq, Repr

/-- Embedded from `src/frontend/src/pages/BookingForm.js`
(`calculateTotalPrice`): returns 0 when the form fields or the room are
missing; `nights = ceil((checkOut - checkIn) / 86400000)` — the date inputs
are midnight timestamps, so the difference is a whole number of days and
the ceiling is the plain difference, modelled on `ℤ`; returns 0 when
`nights ≤ 0`; otherwise `nights × price_per_night` plus the sum of the
prices of the `available_offers` whose id is in `selectedOffers`. -/
def calculateTotalPrice (room : Option JsRoom) (check_in_date check_out_date : Option ℤ)
    (selectedOffers : List ℕ) : ℚ :=
  match room, check_in_date, check_out_date with
  | some rm, some checkIn, some checkOut =>
    let nights : ℤ := checkOut - checkIn
    if nights ≤ 0 then 0
    else (nights : ℚ) * rm.price_per_night +
      ((rm.available_offers.filter fun o => selectedOffers.contains o.id).map
        (fun o => o.price)).sum
  | _, _, _ => 0

/-- Embedded from `src/frontend/src/pages/UserDashboard.js`
(`calculateBonusPoints`): `Math.floor(totalPrice / 10)`. -/
def calculateBonusPoints (totalPrice : ℚ) : ℤ :=
  ⌊totalPrice / 10⌋

/-- Embedded from `src/frontend/src/pages/UserDashboard.js`
(`canCancelOrExtend`): the dashboard offers cancel/extend only for pending
or confirmed bookings. -/
def canCancelOrExtend (status : BookingStatus) : Bool :=
  status == pending || status == confirmed

/-- Insert a booking into a list sorted by check-in date, before the first
element with a later-or-equal check-in (stable insertion). -/
def insertByCheckIn (b : Booking) : List Booking → List Booking
  | [] => [b]
  | c :: t =>
    if b.check_in ≤ c.check_in then b :: c :: t else c :: insertByCheckIn b t

/-- Stable sort by ascending check-in date, modelling the JavaScript
`sort((a, b) => new Date(a.check_in_date) - new Date(b.check_in_date))`
(ECMAScript `Array.prototype.sort` is stable). -/
def sortByCheckIn : List Booking → List Booking
  | [] => []
  | b :: t => insertByCheckIn b (sortByCheckIn t)

/-- The per-room entry produced by the occupancy computation of
`AdminPanel.js`. -/
structure OccupancyEntry where
  room : Room
  isOccupied : Bool
  currentBooking : Option Booking
  upcomingBookings : List Booking
deriving DecidableEq, Repr

/-- Embedded from `src/frontend/src/pages/AdminPanel.js`
(`loadRoomOccupancy`, lines 164–217): for each room, filter the bookings of
that room that are not cancelled; the current booking is the first with
`check_in ≤ today < check_out`; upcoming bookings are those with
`check_in > today`, sorted by check-in ascending (JavaScript's stable
`sort`) and truncated to the first 5; `isOccupied` is `!!currentBooking`.
Dates are day numbers (the source normalises every date with
`setHours(0,0,0,0)` before comparing).  The computation only reads the
fetched data and writes the result to component state — it mutates no
booking or room. -/
def loadRoomOccupancy (roomsData : List Room) (bookingsData : List Booking)
    (today : ℕ) : List OccupancyEntry :=
  roomsData.map fun room =>
    let roomBookings := bookingsData.filter fun b =>
      b.room_id == room.id && b.status != cancelled
    let currentBooking := roomBookings.find? fun b =>
      decide (b.check_in ≤ today) && decide (today < b.check_out)
    let upcomingBookings :=
      (sortByCheckIn (roomBookings.filter fun b => decide (today < b.check_in))).take 5
    { room := room
      isOccupied := currentBooking.isSome
      currentBooking := currentBooking
      upcomingBookings := upcomingBookings }

/-- Round-half-up to two decimal places (the currency rounding named by the
spec §4.2). -/
def roundHalfUp2 (q : ℚ) : ℚ :=
  ((⌊q * 100 + 1 / 2⌋ : ℤ) : ℚ) / 100

/-- Modelled from the spec: §6 `getOffersFor` of the offer catalog (backend
absent from `src/`) — the offers served to the booking form with a room as
`available_offers`: the active offers whose scope permits the room. -/
def availableOffersFor (catalog : List Offer) (rm : Room) : List Offer :=
  catalog.filter fun o => o.is_active && eligibleB o rm

/-- The non-cancelled upcoming bookings of a room (check-in strictly after
`today`), in repository order — the reference set for the occupancy query. -/
def upcomingFor (bookings : List Booking) (roomId today : ℕ) : List Booking :=
  bookings.filter fun b =>
    decide (today < b.check_in) && (b.room_id == roomId && b.status != cancelled)

/-! ## Concrete sample data used by the evaluation theorems -/

/-- A $100/night double room. -/
def room101 : Room := { id := 1, price_per_night := 100, capacity := 2 }

/-- A $25 active hotel-wide offer. -/
def offer25 : Offer :=
  { id := 10, price := 25, is_active := true, offer_type := .global, rooms := [] }

/-- Environment with one room and no offers. -/
def envA : Env := { rooms := [room101], offers := [], today := 0 }

/-- Environment with one room and the $25 offer. -/
def envB : Env := { rooms := [room101], offers := [offer25], today := 0 }

/-- A confirmed booking currently occupying room 1 (days [3, 9)). -/
def occBooking : Booking :=
  { id := 0, user_id := 7, room_id := 1, check_in := 3, check_out := 9,
    guests := 1, offers := [], total_price := 600, status := confirmed }

/-- A pending upcoming booking of room 1 (days [7, 8)). -/
def upBooking : Booking :=
  { id := 1, user_id := 8, room_id := 1, check_in := 7, check_out := 8,
    guests := 1, offers := [], total_price := 100, status := pending }

/-- Create request: room 1, days [1, 5). -/
def reqA : CreateReq :=
  { user_id := 7, room_id := 1, check_in := 1, check_out := 5, guests := 1,
    offer_ids := [] }

/-- Create request: room 1, days [5, 8) — same-day turnover with `reqA`. -/
def reqB : CreateReq :=
  { user_id := 8, room_id := 1, check_in := 5, check_out := 8, guests := 1,
    offer_ids := [] }

/-- Create request: room 1, days [3, 7) — overlaps both `reqA` and `reqB`. -/
def reqC : CreateReq :=
  { user_id := 9, room_id := 1, check_in := 3, check_out := 7, guests := 1,
    offer_ids := [] }

/-- The booking created by `reqA` in the initial state. -/
def bkA : Booking :=
  { id := 0, user_id := 7, room_id := 1, check_in := 1, check_out := 5,
    guests := 1, offers := [],
    total_price := computePrice envA room101 1 5 [], status := pending }

/-- The booking created by `reqB` after `bkA`. -/
def bkB : Booking :=
  { id := 1, user_id := 8, room_id := 1, check_in := 5, check_out := 8,
    guests := 1, offers := [],
    total_price := computePrice envA room101 5 8 [], status := pending }

/-- State after creating `reqA` from the initial state. -/
def stA : SysState := { initState with bookings := [bkA], nextId := 1 }

/-- State after additionally creating `reqB`. -/
def stB : SysState := { stA with bookings := [bkA, bkB], nextId := 2 }

/-- A cancelled and a completed booking, for the terminal-state claims. -/
def bkCancelled : Booking :=
  { id := 0, user_id := 7, room_id := 1, check_in := 1, check_out := 2,
    guests := 1, offers := [], total_price := 100, status := cancelled }

/-- A completed booking with id 1. -/
def bkCompleted : Booking :=
  { id := 1, user_id := 7, room_id := 1, check_in := 3, check_out := 4,
    guests := 1, offers := [], total_price := 100, status := completed }

/-- State holding only terminal bookings. -/
def stTerm : SysState :=
  { bookings := [bkCancelled, bkCompleted], nextId := 2, bonus := fun _ => 0 }

/-- A confirmed booking with `total_price = 99.00`. -/
def bkConfirmed99 : Booking :=
  { id := 0, user_id := 7, room_id := 1, check_in := 1, check_out := 2,
    guests := 1, offers := [], total_price := 99, status := confirmed }

/-- State holding the $99 confirmed booking. -/
def stC4 : SysState := { bookings := [bkConfirmed99], nextId := 1, bonus := fun _ => 0 }

/-- Pending booking of room 1 on days [1, 3) (the spec's Jan 1 – Jan 3). -/
def bkP1 : Booking :=
  { id := 0, user_id := 7, room_id := 1, check_in := 1, check_out := 3,
    guests := 1, offers := [], total_price := computePrice envA room101 1 3 [],
    status := pending }

/-- Pending booking of room 1 on days [5, 7) (the spec's Jan 5 – Jan 7). -/
def bkP2 : Booking :=
  { id := 1, user_id := 8, room_id := 1, check_in := 5, check_out := 7,
    guests := 1, offers := [], total_price := computePrice envA room101 5 7 [],
    status := pending }

/-- State with the two pending bookings [1, 3) and [5, 7) of room 1. -/
def stDraft : SysState := { bookings := [bkP1, bkP2], nextId := 2, bonus := fun _ => 0 }

/-- Pending booking of room 1 on days [1, 3) carrying the $25 offer
(`total_price = 2 × 100 + 25 = 225`). -/
def bkOff : Booking :=
  { id := 0, user_id := 7, room_id := 1, check_in := 1, check_out := 3,
    guests := 1, offers := [10], total_price := computePrice envB room101 1 3 [10],
    status := pending }

/-- State holding the offer-carrying booking. -/
def stOff : SysState := { bookings := [bkOff], nextId := 1, bonus := fun _ => 0 }

/-- What the draft `extend_booking` turns `bkP1` into when extended by 5
days: check-out moves from day 3 to day 8 (overlapping `bkP2`), price
becomes `7 × 100` with no availability check run. -/
def bkP1ext : Booking :=
  { id := 0, user_id := 7, room_id := 1, check_in := 1, check_out := 8,
    guests := 1, offers := [],
    total_price := ((8 - 1 : ℕ) : ℚ) * room101.price_per_night, status := pending }

/-- The state the draft `extend_booking` produces from `stDraft`. -/
def stDraftExt : SysState :=
  { bookings := [bkP1ext, bkP2], nextId := 2, bonus := fun _ => 0 }

/-- What the draft `extend_booking` turns `bkOff` into when extended by 1
day: the recomputed price `3 × 100` silently drops the $25 offer. -/
def bkOffExt : Booking :=
  { id := 0, user_id := 7, room_id := 1, check_in := 1, check_out := 4,
    guests := 1, offers := [10],
    total_price := ((4 - 1 : ℕ) : ℚ) * room101.price_per_night, status := pending }

/-- The state the draft `extend_booking` produces from `stOff`. -/
def stOffExt : SysState :=
  { bookings := [bkOffExt], nextId := 1, bonus := fun _ => 0 }

/-- The occupancy entry computed for `room101` from the bookings
`[occBooking, upBooking]` as of day 5. -/
def occEntrySample : OccupancyEntry :=
  { room := room101, isOccupied := true, currentBooking := some occBooking,
    upcomingBookings := [upBooking] }

/-- The booking-form room object of `room101` under the catalog of `envB`. -/
def jsRoom100 : JsRoom :=
  { price_per_night := room101.price_per_night
    available_offers := availableOffersFor envB.offers room101 }

/-! ## Helper lemmas -/

lemma contains_iff_mem (s : List ℕ) (i : ℕ) : s.contains i = true ↔ i ∈ s := by
  simp

lemma toggle_of_not_mem {i : ℕ} {s : List ℕ} (h : i ∉ s) :
    handleOfferToggle i s = s ++ [i] := by
  rw [handleOfferToggle, if_neg]
  simpa [contains_iff_mem] using h

lemma toggle_of_mem {i : ℕ} {s : List ℕ} (h : i ∈ s) :
    handleOfferToggle i s = s.filter (fun x => x != i) := by
  rw [handleOfferToggle, if_pos]
  simpa [contains_iff_mem] using h

lemma toggle_nodup (i : ℕ) (s : List ℕ) (h : s.Nodup) :
    (handleOfferToggle i s).Nodup := by
  by_cases hm : i ∈ s
  · rw [toggle_of_mem hm]
    exact h.filter _
  · rw [toggle_of_not_mem hm]
    rw [List.nodup_append]
    refine ⟨h, List.nodup_singleton i, ?_⟩
    intro a ha hai
    simp only [List.mem_singleton] at hai
    exact hm (hai ▸ ha)

lemma toggle_toggle_of_not_mem {i : ℕ} {s : List ℕ} (h : i ∉ s) :
    handleOfferToggle i (handleOfferToggle i s) = s := by
  rw [toggle_of_not_mem h, toggle_of_mem (by simp), List.filter_append]
  have h₁ : s.filter (fun x => x != i) = s :=
    List.filter_eq_self.mpr fun a ha => by
      simp only [bne_iff_ne, ne_eq]
      exact fun hai => h (hai ▸ ha)
  simp [h₁]

lemma toggle_toggle_mem (i : ℕ) (s : List ℕ) (x : ℕ) :
    x ∈ handleOfferToggle i (handleOfferToggle i s) ↔ x ∈ s := by
  by_cases hm : i ∈ s
  · rw [toggle_of_mem hm]
    have hni : i ∉ s.filter (fun x => x != i) := by simp
    rw [toggle_of_not_mem hni]
    by_cases hx : x = i
    · subst hx
      simp [hm]
    · simp [List.mem_filter, hx]
  · rw [toggle_toggle_of_not_mem hm]

lemma insertByCheckIn_perm (b : Booking) (l : List Booking) :
    (insertByCheckIn b l).Perm (b :: l) := by
  induction l with
  | nil => exact List.Perm.refl _
  | cons c t ih =>
    rw [insertByCheckIn]
    split
    · exact List.Perm.refl _
    · exact (ih.cons c).trans (List.Perm.swap b c t)

lemma sortByCheckIn_perm (l : List Booking) : (sortByCheckIn l).Perm l := by
  induction l with
  | nil => exact List.Perm.refl _
  | cons b t ih =>
    rw [sortByCheckIn]
    exact (insertByCheckIn_perm b (sortByCheckIn t)).trans (ih.cons b)

lemma insertByCheckIn_pairwise (b : Booking) (l : List Booking)
    (h : l.Pairwise (fun x y => x.check_in ≤ y.check_in)) :
    (insertByCheckIn b l).Pairwise (fun x y => x.check_in ≤ y.check_in) := by
  induction l with
  | nil => simp [insertByCheckIn]
  | cons c t ih =>
    rw [List.pairwise_cons] at h
    rw [insertByCheckIn]
    split
    · rename_i hle
      refine List.pairwise_cons.mpr ⟨?_, List.pairwise_cons.mpr h⟩
      intro y hy
      rcases List.mem_cons.mp hy with hy | hy
      · exact hy ▸ hle
      · exact le_trans hle (h.1 y hy)
    · rename_i hgt
      refine List.pairwise_cons.mpr ⟨?_, ih h.2⟩
      intro y hy
      rcases List.mem_cons.mp ((insertByCheckIn_perm b t).mem_iff.mp hy) with hy | hy
      · subst hy
        omega
      · exact h.1 y hy

lemma sortByCheckIn_pairwise (l : List Booking) :
    (sortByCheckIn l).Pairwise (fun x y => x.check_in ≤ y.check_in) := by
  induction l with
  | nil => simp [sortByCheckIn]
  | cons b t ih => exact insertByCheckIn_pairwise b (sortByCheckIn t) ih

lemma mem_conflicting_none {bs : List Booking} {roomId a b : ℕ} {bk : Booking} :
    bk ∈ conflictingBookings bs roomId a b none ↔
      bk ∈ bs ∧ isActive bk.status = true ∧ bk.room_id = roomId ∧
        a < bk.check_out ∧ bk.check_in < b := by
  simp only [conflictingBookings, List.mem_filter, Bool.and_eq_true, Bool.true_and,
    decide_eq_true_iff, beq_iff_eq]
  tauto

lemma mem_conflicting_some {bs : List Booking} {roomId a b e : ℕ} {bk : Booking} :
    bk ∈ conflictingBookings bs roomId a b (some e) ↔
      bk ∈ bs ∧ bk.id ≠ e ∧ isActive bk.status = true ∧ bk.room_id = roomId ∧
        a < bk.check_out ∧ bk.check_in < b := by
  simp only [conflictingBookings, List.mem_filter, Bool.and_eq_true, Bool.true_and,
    decide_eq_true_iff, beq_iff_eq, bne_iff_ne, ne_eq]
  tauto

lemma conflicting_none_isEmpty_iff {bs : List Booking} {roomId a b : ℕ} :
    (conflictingBookings bs roomId a b none).isEmpty = true ↔
      ∀ bk ∈ bs, isActive bk.status = true → bk.room_id = roomId →
        ¬ Overlaps a b bk.check_in bk.check_out := by
  rw [List.isEmpty_iff, List.eq_nil_iff_forall_not_mem]
  constructor
  · intro h bk hbk hact hroom hov
    exact h bk (mem_conflicting_none.mpr ⟨hbk, hact, hroom, hov.1, hov.2⟩)
  · intro h bk hmem
    obtain ⟨hbk, hact, hroom, h1, h2⟩ := mem_conflicting_none.mp hmem
    exact h bk hbk hact hroom ⟨h1, h2⟩

lemma conflicting_some_isEmpty_iff {bs : List Booking} {roomId a b e : ℕ} :
    (conflictingBookings bs roomId a b (some e)).isEmpty = true ↔
      ∀ bk ∈ bs, bk.id ≠ e → isActive bk.status = true → bk.room_id = roomId →
        ¬ Overlaps a b bk.check_in bk.check_out := by
  rw [List.isEmpty_iff, List.eq_nil_iff_forall_not_mem]
  constructor
  · intro h bk hbk hne hact hroom hov
    exact h bk (mem_conflicting_some.mpr ⟨hbk, hne, hact, hroom, hov.1, hov.2⟩)
  · intro h bk hmem
    obtain ⟨hbk, hne, hact, hroom, h1, h2⟩ := mem_conflicting_some.mp hmem
    exact h bk hbk hne hact hroom ⟨h1, h2⟩

lemma find?_id_unique {l : List Booking} {bid : ℕ} {b₀ b : Booking}
    (hnd : (l.map fun x => x.id).Nodup)
    (hf : l.find? (fun x => x.id == bid) = some b₀)
    (hb : b ∈ l) (hid : b.id = bid) : b = b₀ := by
  induction l with
  | nil => simp at hb
  | cons x t ih =>
    rw [List.map_cons, List.nodup_cons] at hnd
    rw [List.find?_cons] at hf
    rcases List.mem_cons.mp hb with rfl | hbt
    · rw [show (b.id == bid) = true by simp [hid]] at hf
      exact Option.some.inj hf
    · by_cases hx : x.id = bid
      · exfalso
        apply hnd.1
        rw [List.mem_map]
        exact ⟨b, hbt, by omega⟩
      · rw [show (x.id == bid) = false by simp [hx]] at hf
        exact ih hnd.2 hf hbt

lemma find?_booking_pred {l : List Booking} {bid : ℕ} {b₀ : Booking}
    (hf : l.find? (fun x => x.id == bid) = some b₀) : b₀.id = bid := by
  have := List.find?_some hf
  simpa using this

lemma setStatus_ids (st : SysState) (bid : ℕ) (s : BookingStatus) :
    ((setStatus st bid s).bookings.map fun x => x.id) =
      (st.bookings.map fun x => x.id) := by
  simp only [setStatus, List.map_map]
  apply List.map_congr_left
  intro b _
  by_cases hb : b.id = bid <;> simp [hb]

lemma inv_setStatus {st : SysState} (hInv : Inv st) {bid : ℕ} (s : BookingStatus)
    {b₀ : Booking} (hf : findBooking st bid = some b₀)
    (hact : isActive s = true → isActive b₀.status = true) :
    Inv (setStatus st bid s) := by
  obtain ⟨hlt, hnd, hno⟩ := hInv
  refine ⟨?_, ?_, ?_⟩
  · intro b hb
    simp only [setStatus, List.mem_map] at hb
    obtain ⟨c, hc, rfl⟩ := hb
    have : (if c.id = bid then { c with status := s } else c).id = c.id := by
      by_cases hcb : c.id = bid <;> simp [hcb]
    rw [this]
    exact hlt c hc
  · rw [setStatus_ids]
    exact hnd
  · intro b₁ h₁ b₂ h₂ hne hroom hact₁ hact₂ hov
    simp only [setStatus, List.mem_map] at h₁ h₂
    obtain ⟨c₁, hc₁, rfl⟩ := h₁
    obtain ⟨c₂, hc₂, rfl⟩ := h₂
    have hfields : ∀ c : Booking,
        (if c.id = bid then { c with status := s } else c).id = c.id ∧
        (if c.id = bid then { c with status := s } else c).room_id = c.room_id ∧
        (if c.id = bid then { c with status := s } else c).check_in = c.check_in ∧
        (if c.id = bid then { c with status := s } else c).check_out = c.check_out := by
      intro c
      by_cases hcb : c.id = bid <;> simp [hcb]
    have hstat : ∀ c ∈ st.bookings,
        isActive (if c.id = bid then { c with status := s } else c).status = true →
        isActive c.status = true := by
      intro c hc hca
      by_cases hcb : c.id = bid
      · rw [if_pos hcb] at hca
        have hcb₀ : c = b₀ := find?_id_unique hnd hf hc hcb
        rw [hcb₀]
        exact hact hca
      · rwa [if_neg hcb] at hca
    rw [(hfields c₁).1, (hfields c₂).1] at hne
    rw [(hfields c₁).2.1, (hfields c₂).2.1] at hroom
    rw [(hfields c₁).2.2.1, (hfields c₂).2.2.1, (hfields c₁).2.2.2, (hfields c₂).2.2.2] at hov
    exact hno c₁ hc₁ c₂ hc₂ hne hroom (hstat c₁ hc₁ hact₁) (hstat c₂ hc₂ hact₂) hov

lemma createBooking_ok {env : Env} {st : SysState} {r : CreateReq} {st' : SysState}
    (h : createBooking env st r = .ok st') :
    ∃ rm, env.rooms.find? (fun rm' => rm'.id == r.room_id) = some rm ∧
      (conflictingBookings st.bookings r.room_id r.check_in r.check_out none).isEmpty = true ∧
      st' = createdState env st r rm := by
  unfold createBooking at h
  cases hrm : env.rooms.find? (fun rm' => rm'.id == r.room_id) with
  | none =>
    simp only [hrm] at h
    exact absurd h (by simp)
  | some rm =>
    simp only [hrm] at h
    split at h
    · split at h
      · split at h
        · rename_i hempty
          exact ⟨rm, rfl, hempty, (Except.ok.inj h).symm⟩
        · exact absurd h (by simp)
      · exact absurd h (by simp)
    · exact absurd h (by simp)

lemma confirmBooking_ok {st : SysState} {bid : ℕ} {st' : SysState}
    (h : confirmBooking st bid = .ok st') :
    ∃ b₀, findBooking st bid = some b₀ ∧ b₀.status = pending ∧
      st' = setStatus st bid confirmed := by
  unfold confirmBooking at h
  cases hf : findBooking st bid with
  | none =>
    simp only [hf] at h
    exact absurd h (by simp)
  | some b₀ =>
    simp only [hf] at h
    split at h
    · rename_i hstat
      exact ⟨b₀, rfl, hstat, (Except.ok.inj h).symm⟩
    · exact absurd h (by simp)

lemma declineBooking_ok {st : SysState} {bid : ℕ} {st' : SysState}
    (h : declineBooking st bid = .ok st') :
    ∃ b₀, findBooking st bid = some b₀ ∧ b₀.status = pending ∧
      st' = setStatus st bid cancelled := by
  unfold declineBooking at h
  cases hf : findBooking st bid with
  | none =>
    simp only [hf] at h
    exact absurd h (by simp)
  | some b₀ =>
    simp only [hf] at h
    split at h
    · rename_i hstat
      exact ⟨b₀, rfl, hstat, (Except.ok.inj h).symm⟩
    · exact absurd h (by simp)

lemma cancelBooking_ok {st : SysState} {bid : ℕ} {st' : SysState}
    (h : cancelBooking st bid = .ok st') :
    ∃ b₀, findBooking st bid = some b₀ ∧ (b₀.status = pending ∨ b₀.status = confirmed) ∧
      st' = setStatus st bid cancelled := by
  unfold cancelBooking at h
  cases hf : findBooking st bid with
  | none =>
    simp only [hf] at h
    exact absurd h (by simp)
  | some b₀ =>
    simp only [hf] at h
    split at h
    · rename_i hstat
      exact ⟨b₀, rfl, hstat, (Except.ok.inj h).symm⟩
    · exact absurd h (by simp)

lemma completeBooking_ok {st : SysState} {bid : ℕ} {st' : SysState}
    (h : completeBooking st bid = .ok st') :
    ∃ b₀, findBooking st bid = some b₀ ∧ b₀.status = confirmed ∧
      st' = completedState st bid b₀ := by
  unfold completeBooking at h
  cases hf : findBooking st bid with
  | none =>
    simp only [hf] at h
    exact absurd h (by simp)
  | some b₀ =>
    simp only [hf] at h
    split at h
    · rename_i hstat
      exact ⟨b₀, rfl, hstat, (Except.ok.inj h).symm⟩
    · exact absurd h (by simp)

lemma extendBooking_ok {env : Env} {st : SysState} {bid n : ℕ} {st' : SysState}
    (h : extendBooking env st bid n = .ok st') :
    ∃ b₀ rm, findBooking st bid = some b₀ ∧ isActive b₀.status = true ∧
      (1 ≤ n ∧ n ≤ 30) ∧
      env.rooms.find? (fun rm' => rm'.id == b₀.room_id) = some rm ∧
      (conflictingBookings st.bookings b₀.room_id b₀.check_in (b₀.check_out + n)
        (some bid)).isEmpty = true ∧
      st' = extendedState env st bid n b₀ rm := by
  unfold extendBooking at h
  cases hf : findBooking st bid with
  | none =>
    simp only [hf] at h
    exact absurd h (by simp)
  | some b₀ =>
    simp only [hf] at h
    split at h
    · rename_i hact
      split at h
      · rename_i hn
        cases hrm : env.rooms.find? (fun rm' => rm'.id == b₀.room_id) with
        | none =>
          simp only [hrm] at h
          exact absurd h (by simp)
        | some rm =>
          simp only [hrm] at h
          split at h
          · rename_i hempty
            exact ⟨b₀, rm, rfl, hact, hn, hrm, hempty, (Except.ok.inj h).symm⟩
          · exact absurd h (by simp)
      · exact absurd h (by simp)
    · exact absurd h (by simp)

lemma inv_create {env : Env} {st : SysState} {r : CreateReq} {st' : SysState}
    (h : createBooking env st r = .ok st') (hInv : Inv st) : Inv st' := by
  obtain ⟨rm, _, hempty, rfl⟩ := createBooking_ok h
  obtain ⟨hlt, hnd, hno⟩ := hInv
  have hconf := conflicting_none_isEmpty_iff.mp hempty
  refine ⟨?_, ?_, ?_⟩
  · intro b hb
    simp only [createdState, List.mem_append, List.mem_singleton] at hb
    rcases hb with hb | rfl
    · exact Nat.lt_succ_of_lt (hlt b hb)
    · exact Nat.lt_succ_self _
  · show ((st.bookings ++ [newBookingOf env st r rm]).map fun x => x.id).Nodup
    rw [List.map_append, List.nodup_append]
    refine ⟨hnd, by simp, ?_⟩
    intro a ha hb
    simp only [List.map_cons, List.map_nil, List.mem_singleton] at hb
    obtain ⟨c, hc, hcid⟩ := List.mem_map.mp ha
    have := hlt c hc
    have : a = st.nextId := hb
    omega
  · intro b₁ h₁ b₂ h₂ hne hroom hact₁ hact₂ hov
    simp only [createdState, List.mem_append, List.mem_singleton] at h₁ h₂
    rcases h₁ with h₁ | rfl <;> rcases h₂ with h₂ | rfl
    · exact hno b₁ h₁ b₂ h₂ hne hroom hact₁ hact₂ hov
    · refine hconf b₁ h₁ hact₁ ?_ ⟨hov.2, hov.1⟩
      simpa [newBookingOf] using hroom
    · refine hconf b₂ h₂ hact₂ ?_ ⟨hov.1, hov.2⟩
      simpa [newBookingOf] using hroom.symm
    · exact absurd rfl hne

lemma inv_extend {env : Env} {st : SysState} {bid n : ℕ} {st' : SysState}
    (h : extendBooking env st bid n = .ok st') (hInv : Inv st) : Inv st' := by
  obtain ⟨b₀, rm, hf, hact₀, hn, hrm, hempty, rfl⟩ := extendBooking_ok h
  obtain ⟨hlt, hnd, hno⟩ := hInv
  have hconf := conflicting_some_isEmpty_iff.mp hempty
  have hb₀id : b₀.id = bid := find?_booking_pred hf
  have hfid : ∀ c : Booking,
      ((fun c : Booking => if c.id = bid then
        { c with check_out := b₀.check_out + n
                 total_price := computePrice env rm b₀.check_in (b₀.check_out + n) b₀.offers }
        else c) c).id = c.id := by
    intro c
    by_cases hc : c.id = bid <;> simp [hc]
  have hfroom : ∀ c : Booking,
      ((fun c : Booking => if c.id = bid then
        { c with check_out := b₀.check_out + n
                 total_price := computePrice env rm b₀.check_in (b₀.check_out + n) b₀.offers }
        else c) c).room_id = c.room_id := by
    intro c
    by_cases hc : c.id = bid <;> simp [hc]
  have hfstat : ∀ c : Booking,
      ((fun c : Booking => if c.id = bid then
        { c with check_out := b₀.check_out + n
                 total_price := computePrice env rm b₀.check_in (b₀.check_out + n) b₀.offers }
        else c) c).status = c.status := by
    intro c
    by_cases hc : c.id = bid <;> simp [hc]
  have hfin : ∀ c : Booking,
      ((fun c : Booking => if c.id = bid then
        { c with check_out := b₀.check_out + n
                 total_price := computePrice env rm b₀.check_in (b₀.check_out + n) b₀.offers }
        else c) c).check_in = c.check_in := by
    intro c
    by_cases hc : c.id = bid <;> simp [hc]
  refine ⟨?_, ?_, ?_⟩
  · intro b hb
    simp only [extendedState, List.mem_map] at hb
    obtain ⟨c, hc, rfl⟩ := hb
    rw [hfid c]
    exact hlt c hc
  · have hids : ((extendedState env st bid n b₀ rm).bookings.map fun x => x.id) =
        st.bookings.map fun x => x.id := by
      simp only [extendedState, List.map_map]
      exact List.map_congr_left fun c _ => hfid c
    rw [hids]
    exact hnd
  · intro b₁ h₁ b₂ h₂ hne hroom hact₁ hact₂ hov
    simp only [extendedState, List.mem_map] at h₁ h₂
    obtain ⟨c₁, hc₁, rfl⟩ := h₁
    obtain ⟨c₂, hc₂, rfl⟩ := h₂
    rw [hfid c₁, hfid c₂] at hne
    rw [hfroom c₁, hfroom c₂] at hroom
    rw [hfstat c₁] at hact₁
    rw [hfstat c₂] at hact₂
    by_cases h1b : c₁.id = bid <;> by_cases h2b : c₂.id = bid
    · exact hne (by omega)
    · have hc₁b₀ : c₁ = b₀ := find?_id_unique hnd hf hc₁ h1b
      subst hc₁b₀
      refine hconf c₂ hc₂ (by omega) hact₂ (by omega) ?_
      simp only [Overlaps] at hov ⊢
      rw [if_pos h1b, if_neg h2b] at hov
      simpa using hov
    · have hc₂b₀ : c₂ = b₀ := find?_id_unique hnd hf hc₂ h2b
      subst hc₂b₀
      refine hconf c₁ hc₁ (by omega) hact₁ (by omega) ?_
      simp only [Overlaps] at hov ⊢
      rw [if_neg h1b, if_pos h2b] at hov
      simp only [Booking.check_in, Booking.check_out] at hov
      exact ⟨hov.2, by simpa using hov.1⟩
    · rw [if_neg h1b] at hov
      rw [if_neg h2b] at hov
      exact hno c₁ hc₁ c₂ hc₂ hne hroom hact₁ hact₂ hov

lemma inv_init : Inv initState := by
  refine ⟨?_, ?_, ?_⟩
  · intro b hb
    simp [initState] at hb
  · simp [initState]
  · intro b hb
    simp [initState] at hb

lemma step_inv {env : Env} {st st' : SysState} (h : Step env st st') (hInv : Inv st) :
    Inv st' := by
  cases h with
  | create r hc => exact inv_create hc hInv
  | confirm bid hc =>
    obtain ⟨b₀, hf, hstat, rfl⟩ := confirmBooking_ok hc
    exact inv_setStatus hInv confirmed hf (fun _ => by rw [hstat]; rfl)
  | decline bid hc =>
    obtain ⟨b₀, hf, hstat, rfl⟩ := declineBooking_ok hc
    exact inv_setStatus hInv cancelled hf (fun hx => by simp [isActive] at hx)
  | cancel bid hc =>
    obtain ⟨b₀, hf, hstat, rfl⟩ := cancelBooking_ok hc
    exact inv_setStatus hInv cancelled hf (fun hx => by simp [isActive] at hx)
  | complete bid hc =>
    obtain ⟨b₀, hf, hstat, rfl⟩ := completeBooking_ok hc
    have h1 : Inv (setStatus st bid completed) :=
      inv_setStatus hInv completed hf (fun hx => by simp [isActive] at hx)
    exact h1
  | extend bid n hc => exact inv_extend hc hInv

lemma reachable_inv {env : Env} {st : SysState} (h : Reachable env st) : Inv st := by
  induction h with
  | refl => exact inv_init
  | tail _ hstep ih => exact step_inv hstep ih

/-! ## Claims -/

/-- **C9** (counterexample). The claim says `handleOfferToggle` is an
involution on the selection state; on the reachable selection `[1, 2]`
toggling offer 1 twice produces `[2, 1]`, which differs from the original
list, so the literal involution fails. -/
theorem c9_toggle_not_involution :
    handleOfferToggle 1 (handleOfferToggle 1 [1, 2]) ≠ [1, 2] := by decide

/-- **C9** (amended). The selection never contains duplicate offer ids
(toggling preserves duplicate-freedom, and every selection reached from the
initial empty selection is duplicate-free), and toggling the same offer id
twice returns the selection to its original value as a set: the result has
exactly the original members; when the toggled id was not selected, the
original list is even restored exactly.  (Toggling an id that is currently
selected removes it and a second toggle re-appends it at the end, so the
restored selection can differ from the original in order only.) -/
theorem c9_toggle_nodup_and_set_involution :
    (∀ (s : List ℕ) (i : ℕ), s.Nodup → (handleOfferToggle i s).Nodup) ∧
    (∀ (s : List ℕ) (i x : ℕ),
      x ∈ handleOfferToggle i (handleOfferToggle i s) ↔ x ∈ s) ∧
    (∀ (s : List ℕ) (i : ℕ), i ∉ s →
      handleOfferToggle i (handleOfferToggle i s) = s) ∧
    (∀ ids : List ℕ, (ids.foldl (fun s i => handleOfferToggle i s) []).Nodup) := by
  refine ⟨fun s i h => toggle_nodup i s h,
          fun s i x => toggle_toggle_mem i s x,
          fun s i h => toggle_toggle_of_not_mem h, fun ids => ?_⟩
  suffices h : ∀ (ids : List ℕ) (s : List ℕ), s.Nodup →
      (ids.foldl (fun s i => handleOfferToggle i s) s).Nodup from
    h ids [] List.nodup_nil
  intro ids
  induction ids with
  | nil => exact fun s hs => hs
  | cons i t ih => exact fun s hs => ih _ (toggle_nodup i s hs)

/-- **C9** (witness). The amended statement evaluated on concrete
selections. -/
theorem c9_toggle_witness :
    ((handleOfferToggle 5 [2, 7]).Nodup) ∧
    (3 ∈ handleOfferToggle 5 (handleOfferToggle 5 [3]) ↔ 3 ∈ [3]) ∧
    (handleOfferToggle 5 (handleOfferToggle 5 [2, 7]) = [2, 7]) ∧
    (([1, 2, 1].foldl (fun s i => handleOfferToggle i s) []).Nodup) :=
  ⟨c9_toggle_nodup_and_set_involution.1 [2, 7] 5 (by decide),
   c9_toggle_nodup_and_set_involution.2.1 [3] 5 3,
   c9_toggle_nodup_and_set_involution.2.2.1 [2, 7] 5 (by decide),
   c9_toggle_nodup_and_set_involution.2.2.2 [1, 2, 1]⟩

/-- **C10**. In every entry produced by the occupancy computation of
`AdminPanel.js`, the `isOccupied` flag agrees with the presence of
`currentBooking`: the flag is defined as the presence of the found current
booking, so the two can never disagree. -/
theorem c10_isOccupied_iff_currentBooking :
    ∀ (rooms : List Room) (bookings : List Booking) (today : ℕ),
      ∀ e ∈ loadRoomOccupancy rooms bookings today,
        e.isOccupied = e.currentBooking.isSome := by
  intro rooms bookings today e he
  simp only [loadRoomOccupancy, List.mem_map] at he
  obtain ⟨rm, _, rfl⟩ := he
  rfl

/-- **C10** (witness). The occupancy entry computed for `room101` with the
current booking `occBooking` has `isOccupied = true` and the flag agrees
with the attached booking. -/
theorem c10_witness :
    ({ room := room101, isOccupied := true, currentBooking := some occBooking,
       upcomingBookings := [] } : OccupancyEntry).isOccupied =
      (some occBooking).isSome :=
  c10_isOccupied_iff_currentBooking [room101] [occBooking] 5
    { room := room101, isOccupied := true, currentBooking := some occBooking,
      upcomingBookings := [] } (by decide)

/-- **C7** (counterexample). The claim says a price computation with
`nights ≤ 0` is rejected with a validation error; the frontend
`calculateTotalPrice` (the only price computation under `src/`) instead
returns the price 0 — here evaluated at equal check-in and check-out
dates. -/
theorem c7_zero_nights_returns_zero :
    calculateTotalPrice (some { price_per_night := 100, available_offers := [] })
      (some 5) (some 5) [] = 0 := by decide

/-- **C7** (amended). For every input whose number of nights is ≤ 0 the
frontend price computation returns the price 0; no validation error is
raised (the function is total and never fails). -/
theorem c7_nonpositive_nights_yields_zero :
    ∀ (rm : JsRoom) (a b : ℤ) (sel : List ℕ), b - a ≤ 0 →
      calculateTotalPrice (some rm) (some a) (some b) sel = 0 := by
  intro rm a b sel h
  simp only [calculateTotalPrice]
  rw [if_pos h]

/-- **C7** (witness). A stay with check-out before check-in evaluates to
price 0. -/
theorem c7_witness :
    calculateTotalPrice (some { price_per_night := 100, available_offers := [offer25] })
      (some 5) (some 3) [10] = 0 :=
  c7_nonpositive_nights_yields_zero
    { price_per_night := 100, available_offers := [offer25] } 5 3 [10] (by decide)

/-- **C5**. The occupancy computation produces one entry per room in order;
an entry reports the room occupied iff some non-cancelled booking of the
room satisfies `check_in ≤ as_of_date < check_out`; its upcoming list
contains only non-cancelled bookings of the room with `check_in > as_of`,
is sorted by check-in ascending, has at most 5 elements, and — whenever the
room has at most 5 upcoming bookings — consists of exactly those bookings.
The computation is a pure function of the fetched data: it mutates no
booking or room. -/
theorem c5_occupancy_query_correct :
    ∀ (rooms : List Room) (bookings : List Booking) (today : ℕ),
      ((loadRoomOccupancy rooms bookings today).map (fun e => e.room) = rooms) ∧
      ∀ e ∈ loadRoomOccupancy rooms bookings today,
        (e.isOccupied = true ↔ ∃ b ∈ bookings, b.room_id = e.room.id ∧
            b.status ≠ cancelled ∧ b.check_in ≤ today ∧ today < b.check_out) ∧
        (∀ b ∈ e.upcomingBookings, b ∈ bookings ∧ b.room_id = e.room.id ∧
            b.status ≠ cancelled ∧ today < b.check_in) ∧
        e.upcomingBookings.Pairwise (fun b₁ b₂ => b₁.check_in ≤ b₂.check_in) ∧
        e.upcomingBookings.length ≤ 5 ∧
        ((upcomingFor bookings e.room.id today).length ≤ 5 →
          e.upcomingBookings.Perm (upcomingFor bookings e.room.id today)) := by
  intro rooms bookings today
  constructor
  · simp only [loadRoomOccupancy, List.map_map]
    exact List.map_id rooms
  intro e he
  simp only [loadRoomOccupancy, List.mem_map] at he
  obtain ⟨rm, _, rfl⟩ := he
  have hfe : (bookings.filter fun b => b.room_id == rm.id && b.status != cancelled).filter
        (fun b => decide (today < b.check_in)) = upcomingFor bookings rm.id today :=
    List.filter_filter _ _
  refine ⟨?_, ?_, ?_, ?_, ?_⟩
  · rw [List.find?_isSome]
    simp only [List.mem_filter, Bool.and_eq_true, beq_iff_eq, bne_iff_ne,
      decide_eq_true_iff, ne_eq]
    constructor
    · rintro ⟨b, ⟨hb, hroom, hstat⟩, hin, hout⟩
      exact ⟨b, hb, hroom, hstat, hin, hout⟩
    · rintro ⟨b, hb, hroom, hstat, hin, hout⟩
      exact ⟨b, ⟨hb, hroom, hstat⟩, hin, hout⟩
  · intro b hb
    have hb' := (sortByCheckIn_perm _).mem_iff.mp ((List.take_sublist 5 _).subset hb)
    rw [List.mem_filter, List.mem_filter] at hb'
    obtain ⟨⟨hmem, hrm⟩, hup⟩ := hb'
    simp only [Bool.and_eq_true, beq_iff_eq, bne_iff_ne, decide_eq_true_iff] at hrm hup
    exact ⟨hmem, hrm.1, hrm.2, hup⟩
  · exact (sortByCheckIn_pairwise _).take
  · simp only [List.length_take]
    omega
  · intro hlen
    have hlen' : (upcomingFor bookings rm.id today).length ≤ 5 := hlen
    rw [hfe]
    rw [List.take_of_length_le
      (by rw [(sortByCheckIn_perm (upcomingFor bookings rm.id today)).length_eq]; exact hlen')]
    exact sortByCheckIn_perm _

/-- **C5** (witness). The query over `[occBooking, upBooking]` as of day 5
reports room 1 occupied, and its upcoming list is exactly the upcoming
bookings of the room. -/
theorem c5_witness :
    (occEntrySample.isOccupied = true ↔
      ∃ b ∈ [occBooking, upBooking], b.room_id = occEntrySample.room.id ∧
        b.status ≠ cancelled ∧ b.check_in ≤ 5 ∧ 5 < b.check_out) ∧
    occEntrySample.upcomingBookings.Perm
      (upcomingFor [occBooking, upBooking] occEntrySample.room.id 5) := by
  have h := (c5_occupancy_query_correct [room101] [occBooking, upBooking] 5).2
    occEntrySample (by decide)
  exact ⟨h.1, h.2.2.2.2 (by decide)⟩

lemma floor_half_add_int (m : ℤ) : ⌊(m : ℚ) + 1 / 2⌋ = m := by
  rw [add_comm, Int.floor_add_int]
  norm_num [Int.floor_eq_zero_iff]

lemma roundHalfUp2_eq_self {q : ℚ} (h : ∃ m : ℤ, q * 100 = (m : ℚ)) :
    roundHalfUp2 q = q := by
  obtain ⟨m, hm⟩ := h
  rw [roundHalfUp2, hm, floor_half_add_int, ← hm]
  field_simp

lemma offers_sum_cents (l : List Offer)
    (h : ∀ o ∈ l, ∃ m : ℤ, o.price * 100 = (m : ℚ)) :
    ∃ m : ℤ, ((l.map fun o => o.price).sum) * 100 = (m : ℚ) := by
  induction l with
  | nil => exact ⟨0, by simp⟩
  | cons o t ih =>
    obtain ⟨m, hm⟩ := h o (List.mem_cons_self o t)
    obtain ⟨mt, hmt⟩ := ih fun x hx => h x (List.mem_cons_of_mem o hx)
    refine ⟨m + mt, ?_⟩
    rw [List.map_cons, List.sum_cons, add_mul, hm, hmt]
    push_cast
    ring

/-- **C3**. When the booking form's room carries the backend-served
`available_offers` (the active offers eligible for the room), the frontend
total for a stay with `check_out > check_in` equals
`nights × price_per_night` plus the sum of the prices of the selected
active eligible offers; and when all prices are whole cents the total is
already at two-decimal precision, so rounding (half-up) to two decimals
leaves it unchanged. -/
theorem c3_price_formula :
    ∀ (catalog : List Offer) (rm : Room) (jsr : JsRoom) (a b : ℤ) (sel : List ℕ),
      jsr.price_per_night = rm.price_per_night →
      jsr.available_offers = availableOffersFor catalog rm →
      a < b →
      (calculateTotalPrice (some jsr) (some a) (some b) sel =
        ((b - a : ℤ) : ℚ) * rm.price_per_night + offersTotal catalog rm sel) ∧
      ((∃ m : ℤ, rm.price_per_night * 100 = (m : ℚ)) →
        (∀ o ∈ catalog, ∃ m : ℤ, o.price * 100 = (m : ℚ)) →
        roundHalfUp2 (calculateTotalPrice (some jsr) (some a) (some b) sel) =
          calculateTotalPrice (some jsr) (some a) (some b) sel) := by
  intro catalog rm jsr a b sel hp ha hab
  have hmain : calculateTotalPrice (some jsr) (some a) (some b) sel =
      ((b - a : ℤ) : ℚ) * rm.price_per_night + offersTotal catalog rm sel := by
    simp only [calculateTotalPrice]
    rw [if_neg (by omega), hp, ha]
    congr 1
    rw [availableOffersFor, offersTotal, List.filter_filter]
    have hpred : (fun a : Offer => sel.contains a.id && (a.is_active && eligibleB a rm)) =
        (fun o : Offer => sel.contains o.id && o.is_active && eligibleB o rm) := by
      funext o
      cases sel.contains o.id <;> cases o.is_active <;> cases eligibleB o rm <;> rfl
    rw [hpred]
  refine ⟨hmain, fun hr ho => ?_⟩
  rw [hmain]
  refine roundHalfUp2_eq_self ?_
  obtain ⟨mr, hmr⟩ := hr
  obtain ⟨ms, hms⟩ := offers_sum_cents
    (catalog.filter fun o => sel.contains o.id && o.is_active && eligibleB o rm)
    (fun o hof => ho o (List.mem_filter.mp hof).1)
  refine ⟨(b - a) * mr + ms, ?_⟩
  have h1 : ((b - a : ℤ) : ℚ) * rm.price_per_night * 100 = (((b - a) * mr : ℤ) : ℚ) := by
    push_cast
    rw [mul_assoc, hmr]
  simp only [offersTotal]
  rw [add_mul, h1, hms]
  push_cast
  ring

/-- **C3** (witness). A 3-night stay in the $100/night room: $300 with no
offers, $325 with the $25 offer, and the rounded total is the total. -/
theorem c3_witness :
    calculateTotalPrice (some jsRoom100) (some 0) (some 3) [] = 300 ∧
    calculateTotalPrice (some jsRoom100) (some 0) (some 3) [10] = 325 ∧
    roundHalfUp2 (calculateTotalPrice (some jsRoom100) (some 0) (some 3) [10]) =
      calculateTotalPrice (some jsRoom100) (some 0) (some 3) [10] := by
  have h1 := c3_price_formula envB.offers room101 jsRoom100 0 3 [] rfl rfl (by decide)
  have h2 := c3_price_formula envB.offers room101 jsRoom100 0 3 [10] rfl rfl (by decide)
  refine ⟨?_, ?_, h2.2 ⟨10000, by norm_num [room101]⟩ ?_⟩
  · rw [h1.1]
    norm_num [room101, offersTotal, envB]
  · rw [h2.1]
    norm_num [room101, offersTotal, envB, offer25, eligibleB]
  · intro o hof
    have : o = offer25 := by
      simpa [envB] using hof
    rw [this]
    exact ⟨2500, by norm_num [offer25]⟩

/-- **C1**. In every reachable state of the booking engine, no two distinct
bookings of a room that are both pending/confirmed have overlapping
half-open date ranges; a create request whose range `[a, b)` overlaps an
existing pending/confirmed range `[c, d)` of the room (`a < d ∧ c < b`)
fails with `conflictError`; and a create request that touches existing
ranges only at their endpoints (no overlap) succeeds, so both bookings may
exist. -/
theorem c1_no_double_booking :
    (∀ (env : Env) (st : SysState), Reachable env st → NoActiveOverlap st.bookings) ∧
    (∀ (env : Env) (st : SysState) (r : CreateReq) (rm : Room),
      env.rooms.find? (fun rm' => rm'.id == r.room_id) = some rm →
      r.check_in < r.check_out ∧ env.today ≤ r.check_in →
      1 ≤ r.guests ∧ r.guests ≤ rm.capacity →
      (∃ bk ∈ st.bookings, isActive bk.status = true ∧ bk.room_id = r.room_id ∧
        Overlaps r.check_in r.check_out bk.check_in bk.check_out) →
      createBooking env st r = .error .conflictError) ∧
    (∀ (env : Env) (st : SysState) (r : CreateReq) (rm : Room),
      env.rooms.find? (fun rm' => rm'.id == r.room_id) = some rm →
      r.check_in < r.check_out ∧ env.today ≤ r.check_in →
      1 ≤ r.guests ∧ r.guests ≤ rm.capacity →
      (∀ bk ∈ st.bookings, isActive bk.status = true → bk.room_id = r.room_id →
        ¬ Overlaps r.check_in r.check_out bk.check_in bk.check_out) →
      createBooking env st r = .ok (createdState env st r rm)) := by
  refine ⟨fun env st h => (reachable_inv h).2.2, ?_, ?_⟩
  · intro env st r rm hrm hdates hguests hconf
    unfold createBooking
    simp only [hrm]
    rw [if_pos hdates, if_pos hguests, if_neg ?hne]
    case hne =>
      intro hemp
      obtain ⟨bk, hbk, hact, hroom, hov⟩ := hconf
      exact conflicting_none_isEmpty_iff.mp hemp bk hbk hact hroom hov
  · intro env st r rm hrm hdates hguests hnoconf
    unfold createBooking
    simp only [hrm]
    rw [if_pos hdates, if_pos hguests, if_pos (conflicting_none_isEmpty_iff.mpr hnoconf)]

/-- **C1** (witness).  From the initial state, creating [1, 5) and then the
same-day-turnover [5, 8) on room 1 both succeed (half-open boundary), the
resulting reachable state satisfies the no-overlap invariant, and a third
create for the overlapping [3, 7) fails with `conflictError`. -/
theorem c1_witness :
    NoActiveOverlap stB.bookings ∧
    createBooking envA stA reqB = .ok stB ∧
    createBooking envA stB reqC = .error .conflictError := by
  have hstep1 : createBooking envA initState reqA = .ok stA := rfl
  have hstep2 : createBooking envA stA reqB = .ok stB := rfl
  have hreach : Reachable envA stB :=
    Relation.ReflTransGen.tail
      (Relation.ReflTransGen.tail Relation.ReflTransGen.refl (Step.create reqA hstep1))
      (Step.create reqB hstep2)
  refine ⟨c1_no_double_booking.1 envA stB hreach, hstep2, ?_⟩
  exact c1_no_double_booking.2.1 envA stB reqC room101 (by decide) (by decide) (by decide)
    (by decide)

/-- **C8**. For a booking in a terminal state (`completed` or `cancelled`),
every status transition of the engine — confirm, decline, cancel, complete
— fails with `invalidStateTransition` naming the current and the requested
state; in particular a cancelled booking cannot be confirmed and a
completed booking cannot be cancelled.  The frontend guard
`canCancelOrExtend` agrees: it offers no action on terminal bookings. -/
theorem c8_terminal_transitions_fail :
    ∀ (st : SysState) (bid : ℕ) (b : Booking),
      findBooking st bid = some b → isTerminal b.status = true →
      confirmBooking st bid = .error (.invalidStateTransition b.status confirmed) ∧
      declineBooking st bid = .error (.invalidStateTransition b.status cancelled) ∧
      cancelBooking st bid = .error (.invalidStateTransition b.status cancelled) ∧
      completeBooking st bid = .error (.invalidStateTransition b.status completed) ∧
      canCancelOrExtend b.status = false := by
  intro st bid b hf hterm
  have hcc : b.status = completed ∨ b.status = cancelled := by
    cases hs : b.status
    · rw [hs] at hterm
      simp [isTerminal] at hterm
    · rw [hs] at hterm
      simp [isTerminal] at hterm
    · exact Or.inl rfl
    · exact Or.inr rfl
  rcases hcc with hs | hs <;>
    exact ⟨by simp [confirmBooking, hf, hs], by simp [declineBooking, hf, hs],
           by simp [cancelBooking, hf, hs], by simp [completeBooking, hf, hs],
           by simp [canCancelOrExtend, hs]⟩

/-- **C8** (witness).  In the concrete state `stTerm`, confirming the
cancelled booking 0 and cancelling the completed booking 1 each fail with
the `invalidStateTransition` naming the two states. -/
theorem c8_witness :
    confirmBooking stTerm 0 = .error (.invalidStateTransition cancelled confirmed) ∧
    cancelBooking stTerm 1 = .error (.invalidStateTransition completed cancelled) := by
  have h0 := c8_terminal_transitions_fail stTerm 0 bkCancelled (by decide) (by decide)
  have h1 := c8_terminal_transitions_fail stTerm 1 bkCompleted (by decide) (by decide)
  exact ⟨h0.1, h1.2.2.1⟩

/-- **C4**. Completing a confirmed booking succeeds and awards exactly
`floor(total_price / 10)` bonus points to the owning user (no other user's
balance changes), and the award happens exactly once: invoking the
completion transition again on the already-completed booking fails with
`invalidStateTransition completed completed`, so the balance stays put. -/
theorem c4_complete_awards_floor_once :
    ∀ (st : SysState) (bid : ℕ) (b : Booking),
      findBooking st bid = some b → b.status = confirmed →
      completeBooking st bid = .ok (completedState st bid b) ∧
      (completedState st bid b).bonus b.user_id =
        st.bonus b.user_id + bonusPointsFor b.total_price ∧
      (∀ u, u ≠ b.user_id → (completedState st bid b).bonus u = st.bonus u) ∧
      completeBooking (completedState st bid b) bid =
        .error (.invalidStateTransition completed completed) := by
  intro st bid b hf hst
  have hbid : b.id = bid := find?_booking_pred hf
  refine ⟨by simp [completeBooking, hf, hst], by simp [completedState], ?_, ?_⟩
  · intro u hu
    simp [completedState, hu]
  · have hf' : findBooking (completedState st bid b) bid =
        some { b with status := completed } := by
      show ((setStatus st bid completed).bookings.find? fun x => x.id == bid) =
        some { b with status := completed }
      simp only [setStatus]
      rw [List.find?_map]
      have hcomp : ((fun x : Booking => x.id == bid) ∘ fun c : Booking =>
          if c.id = bid then { c with status := completed } else c) =
          fun c : Booking => c.id == bid := by
        funext c
        by_cases hc : c.id = bid <;> simp [Function.comp, hc]
      rw [hcomp, show (st.bookings.find? fun x => x.id == bid) = some b from hf]
      simp [hbid]
    simp [completeBooking, hf']

/-- **C4** (witness).  Completing the confirmed $99.00 booking awards
`floor(99 / 10) = 9` points to user 7, and a second completion attempt
fails, leaving the balance at 9. -/
theorem c4_witness :
    completeBooking stC4 0 = .ok (completedState stC4 0 bkConfirmed99) ∧
    (completedState stC4 0 bkConfirmed99).bonus 7 = 9 ∧
    completeBooking (completedState stC4 0 bkConfirmed99) 0 =
      .error (.invalidStateTransition completed completed) := by
  have h := c4_complete_awards_floor_once stC4 0 bkConfirmed99 (by decide) rfl
  refine ⟨h.1, ?_, h.2.2.2⟩
  have h99 : bonusPointsFor 99 = 9 := by
    unfold bonusPointsFor
    rw [show ⌊(99 : ℚ) / 10⌋ = 9 by rw [Int.floor_eq_iff]; norm_num]
    rfl
  rw [show (7 : ℕ) = bkConfirmed99.user_id from rfl, h.2.1]
  show 0 + bonusPointsFor bkConfirmed99.total_price = 9
  rw [show bkConfirmed99.total_price = (99 : ℚ) from rfl, h99]

/-- **C2** (code bug).  The only extend implementation in the snapshot — the
draft `extend_booking` endpoint recorded in `src/unnamed/part_000` (lines
296–330) — runs no availability re-check: extending the pending booking
[1, 3) of room 1 by 5 days while the same room holds the pending booking
[5, 7) succeeds, moves the check-out to day 8, and leaves the state with
two overlapping pending bookings.  The extend of the spec (§4.3,
`extendBooking`), which re-runs the availability check excluding the
booking itself, instead fails with `conflictError` on the 5-day extension —
leaving the booking untouched — and succeeds on the conflict-free 1-day
extension, as the claim states. -/
theorem c2_draft_extend_ignores_conflicts :
    extend_booking envA stDraft 0 5 7 false = .ok stDraftExt ∧
    (∃ b₁ ∈ stDraftExt.bookings, ∃ b₂ ∈ stDraftExt.bookings, b₁.id ≠ b₂.id ∧
      b₁.room_id = b₂.room_id ∧ isActive b₁.status = true ∧ isActive b₂.status = true ∧
      Overlaps b₁.check_in b₁.check_out b₂.check_in b₂.check_out) ∧
    extendBooking envA stDraft 0 5 = .error .conflictError ∧
    extendBooking envA stDraft 0 1 = .ok (extendedState envA stDraft 0 1 bkP1 room101) := by
  exact ⟨rfl, by decide, rfl, rfl⟩

/-- **C6** (code bug).  The draft `extend_booking` recomputes the price as
`nights × price_per_night` only: extending by one day the two-night booking
that carries the $25 offer (total $225) yields a new total of
`3 × 100 = 300`, silently dropping the offer, while the
recomputation-from-scratch mandated by the spec (performed by
`extendBooking`) keeps the booking's offer selection and yields
`3 × 100 + 25 = 325`. -/
theorem c6_draft_extend_drops_offers :
    extend_booking envB stOff 0 1 7 false = .ok stOffExt ∧
    (findBooking stOffExt 0).map (fun b => b.total_price) =
      some (((4 - 1 : ℕ) : ℚ) * room101.price_per_night) ∧
    ((4 - 1 : ℕ) : ℚ) * room101.price_per_night = 300 ∧
    extendBooking envB stOff 0 1 = .ok (extendedState envB stOff 0 1 bkOff room101) ∧
    (findBooking (extendedState envB stOff 0 1 bkOff room101) 0).map
      (fun b => b.total_price) =
      some (computePrice envB room101 bkOff.check_in (bkOff.check_out + 1) bkOff.offers) ∧
    computePrice envB room101 bkOff.check_in (bkOff.check_out + 1) bkOff.offers = 325 := by
  refine ⟨rfl, rfl, by norm_num [room101], rfl, rfl, ?_⟩
  norm_num [computePrice, offersTotal, envB, room101, offer25, eligibleB, bkOff]

end Hotel
